import Mathlib

/-!
Verification development for bitget-mini

A shallow embedding of `src/App.jsx` (the formatter `fmt`, the percentage
helper `pct`, the streaming handlers, the polling effects, the news effect and
the futures ranking) together with the part of ECMAScript number semantics
those functions rest on (`parseFloat`, `Number.prototype.toFixed`,
`Number::toString`, IEEE-754 binary64 arithmetic with round-to-nearest-even).
-/

namespace BitgetMini

set_option maxRecDepth 100000

/-! ## binary64 numbers -/

/-- A JavaScript Number.  A finite value is a sign and a magnitude counted in
units of `2^-1074` (the smallest subnormal), so every finite binary64 value is
`fin neg mag` for exactly one pair; `-0` is `fin true 0`.  The binary64 values
are the magnitudes below `2^2098` with at most 53 significant bits; the
operations below round to such magnitudes. -/
inductive JSNum where
  | fin (neg : Bool) (mag : Nat)
  | inf (neg : Bool)
  | nan
  deriving DecidableEq, Repr

/-- Number of binary digits of `n`, by halving (`fuel` bounds the number of halvings). -/
def bitLen : Nat → Nat → Nat
  | 0, _ => 0
  | fuel + 1, n => if n = 0 then 0 else bitLen fuel (n / 2) + 1

/-- Nearest integer to `p / q`, ties to the even one. -/
def rne (p q : Nat) : Nat :=
  let f := p / q
  let r := p % q
  if 2 * r < q then f else if q < 2 * r then f + 1 else if f % 2 = 0 then f else f + 1

/-- The magnitude `2^1024` (in units of `2^-1074`): the first magnitude that is
no longer finite in binary64. -/
def overflowMag : Nat := 1 <<< 2098

/-- Round the ratio `p / q` (a magnitude in units of `2^-1074`) to a magnitude
with a 53-bit significand, round-to-nearest, ties-to-even.  Magnitudes below
`2^53` units (subnormals and the first binade) are integers of units. -/
def roundMag (p q : Nat) : Nat :=
  let f := p / q
  if f < 2 ^ 53 then rne p q
  else
    let s := bitLen 2098 f - 53
    rne p (q <<< s) <<< s

/-- The binary64 value nearest to `± p / q` units; overflow gives an infinity. -/
def ofRatio (neg : Bool) (p q : Nat) : JSNum :=
  if overflowMag ≤ p / q then .inf neg
  else
    let m := roundMag p q
    if m < overflowMag then .fin neg m else .inf neg

/-- The Number denoted by `± mant × 10^e` (a decimal literal). -/
def ofDecimal (neg : Bool) (mant : Nat) (e : Int) : JSNum :=
  if 0 ≤ e then ofRatio neg ((mant * 10 ^ e.toNat) <<< 1074) 1
  else ofRatio neg (mant <<< 1074) (10 ^ (-e).toNat)

/-- The Number of a natural-number literal. -/
def ofNat (n : Nat) : JSNum := ofDecimal false n 0

namespace JSNum

/-- Unary minus. -/
def neg : JSNum → JSNum
  | fin s m => fin (!s) m
  | inf s => inf (!s)
  | nan => nan

/-- The absolute value, `Math.abs`. -/
def abs : JSNum → JSNum
  | fin _ m => fin false m
  | inf _ => inf false
  | nan => nan

/-- Signed value of a finite number, in units. -/
def units (s : Bool) (m : Nat) : Int := if s then -(m : Int) else (m : Int)

/-- Addition `a + b` (Number::add). -/
def add : JSNum → JSNum → JSNum
  | nan, _ => nan
  | _, nan => nan
  | inf s, inf t => if s = t then inf s else nan
  | inf s, fin _ _ => inf s
  | fin _ _, inf t => inf t
  | fin s m, fin t n =>
    let d := units s m + units t n
    if d = 0 then fin (s && t) 0 -- an exact zero sum is `+0` unless both are negative
    else ofRatio (decide (d < 0)) d.natAbs 1

/-- Subtraction `a - b` (Number::subtract is `a + (-b)`). -/
def sub (a b : JSNum) : JSNum := add a (neg b)

/-- Multiplication `a * b` (Number::multiply). -/
def mul : JSNum → JSNum → JSNum
  | nan, _ => nan
  | _, nan => nan
  | inf s, inf t => inf (xor s t)
  | inf s, fin t n => if n = 0 then nan else inf (xor s t)
  | fin s m, inf t => if m = 0 then nan else inf (xor s t)
  | fin s m, fin t n => ofRatio (xor s t) (m * n) (1 <<< 1074)

/-- Division `a / b` (Number::divide). -/
def div : JSNum → JSNum → JSNum
  | nan, _ => nan
  | _, nan => nan
  | inf _, inf _ => nan
  | inf s, fin t _ => inf (xor s t)
  | fin s _, inf t => fin (xor s t) 0
  | fin s m, fin t n =>
    if n = 0 then (if m = 0 then nan else inf (xor s t))
    else ofRatio (xor s t) (m <<< 1074) n

/-- Comparison `a < b` (Number::lessThan; `false` when either side is NaN). -/
def lt : JSNum → JSNum → Bool
  | nan, _ => false
  | _, nan => false
  | inf s, inf t => s && !t
  | inf s, fin _ _ => s
  | fin _ _, inf t => !t
  | fin s m, fin t n => decide (units s m < units t n)

/-- Comparison `a >= b`: true unless `a < b` or a side is NaN. -/
def ge : JSNum → JSNum → Bool
  | nan, _ => false
  | _, nan => false
  | a, b => !(lt a b)

/-- Comparison `a > b`, which is `b < a`. -/
def gt (a b : JSNum) : Bool := lt b a

/-- Whether the number is NaN. -/
def isNaN : JSNum → Bool
  | nan => true
  | _ => false

/-- Truthiness of a Number: `0`, `-0` and `NaN` are falsy. -/
def truthy : JSNum → Bool
  | fin _ m => m != 0
  | inf _ => true
  | nan => false

end JSNum


/-! ## Strings to numbers -/

/-- WhiteSpace and LineTerminator code points (what `TrimString` removes). -/
def isWhite (c : Char) : Bool :=
  let n := c.toNat
  n = 9 || n = 10 || n = 11 || n = 12 || n = 13 || n = 32 || n = 160 || n = 5760 ||
  (8192 ≤ n && n ≤ 8202) || n = 8232 || n = 8233 || n = 8239 || n = 8287 ||
  n = 12288 || n = 65279

/-- Drop leading white space. -/
def trimStart : List Char → List Char
  | [] => []
  | c :: cs => if isWhite c then trimStart cs else c :: cs

/-- Read decimal digits: the accumulated value, how many were read, the rest. -/
def scanDigits : List Char → Nat → Nat → Nat × Nat × List Char
  | [], acc, n => (acc, n, [])
  | c :: cs, acc, n =>
    if 48 ≤ c.toNat ∧ c.toNat ≤ 57 then scanDigits cs (acc * 10 + (c.toNat - 48)) (n + 1)
    else (acc, n, c :: cs)

/-- An optional sign: whether it is a minus, and the rest. -/
def scanSign : List Char → Bool × List Char
  | [] => (false, [])
  | c :: cs => if c = '-' then (true, cs) else if c = '+' then (false, cs) else (false, c :: cs)

/-- An optional ExponentPart (`e`/`E`, optional sign, at least one digit); when
it is incomplete nothing is consumed. -/
def scanExponent : List Char → Int × List Char
  | [] => (0, [])
  | c :: cs =>
    if c = 'e' ∨ c = 'E' then
      let sg := scanSign cs
      let ds := scanDigits sg.2 0 0
      if ds.2.1 = 0 then (0, c :: cs)
      else ((if sg.1 then -(ds.1 : Int) else (ds.1 : Int)), ds.2.2)
    else (0, c :: cs)

/-- Whether `cs` starts with the characters of `pre`; the rest when it does. -/
def stripChars : List Char → List Char → Option (List Char)
  | [], cs => some cs
  | _ :: _, [] => none
  | p :: ps, c :: cs => if p = c then stripChars ps cs else none

/-- The longest prefix of `cs` that is a StrDecimalLiteral: its Number value
and the unread rest, or `none` when no prefix is one. -/
def scanDecimal (cs : List Char) : Option (JSNum × List Char) :=
  let sg := scanSign cs
  match stripChars ['I', 'n', 'f', 'i', 'n', 'i', 't', 'y'] sg.2 with
  | some rest => some (.inf sg.1, rest)
  | none =>
    let ip := scanDigits sg.2 0 0
    let fp : Nat × Nat × List Char :=
      match ip.2.2 with
      | [] => (ip.1, 0, [])
      | c :: r => if c = '.' then scanDigits r ip.1 0 else (ip.1, 0, c :: r)
    if ip.2.1 = 0 ∧ fp.2.1 = 0 then none
    else
      let ex := scanExponent fp.2.2
      some (ofDecimal sg.1 fp.1 (ex.1 - (fp.2.1 : Int)), ex.2)

/-- The global `parseFloat` on a string: the longest StrDecimalLiteral prefix
of the string trimmed at its start, NaN when there is none. -/
def parseFloatStr (s : String) : JSNum :=
  match scanDecimal (trimStart s.toList) with
  | some r => r.1
  | none => .nan

/-- Value of a digit of a radix-16/8/2 literal, when the character is one. -/
def radixDigit (radix : Nat) (c : Char) : Option Nat :=
  let n := c.toNat
  let v := if 48 ≤ n ∧ n ≤ 57 then n - 48
    else if 97 ≤ n ∧ n ≤ 102 then n - 87
    else if 65 ≤ n ∧ n ≤ 70 then n - 55
    else 99
  if v < radix then some v else none

/-- Read digits of the given radix: the value, how many were read, the rest. -/
def scanRadix (radix : Nat) : List Char → Nat → Nat → Nat × Nat × List Char
  | [], acc, n => (acc, n, [])
  | c :: cs, acc, n =>
    match radixDigit radix c with
    | some v => scanRadix radix cs (acc * radix + v) (n + 1)
    | none => (acc, n, c :: cs)

/-- The radix announced by a `0x`/`0o`/`0b` head, and the rest. -/
def scanRadixHead : List Char → Option (Nat × List Char)
  | z :: c :: cs =>
    if z = '0' then
      if c = 'x' ∨ c = 'X' then some (16, cs)
      else if c = 'o' ∨ c = 'O' then some (8, cs)
      else if c = 'b' ∨ c = 'B' then some (2, cs)
      else none
    else none
  | _ => none

/-- StringToNumber (what `ToNumber` does on a string): white space is trimmed,
the empty string is `+0`, the whole rest must be one numeric literal. -/
def stringToNumber (s : String) : JSNum :=
  let cs := trimStart s.toList
  if cs = [] then .fin false 0
  else
    match scanRadixHead cs with
    | some (radix, r) =>
      let ds := scanRadix radix r 0 0
      if ds.2.1 ≠ 0 ∧ trimStart ds.2.2 = [] then ofNat ds.1 else .nan
    | none =>
      match scanDecimal cs with
      | some (v, rest) => if trimStart rest = [] then v else .nan
      | none => .nan

/-! ## Numbers to strings -/

/-- One unit of value, `1.0`, counted in units of `2^-1074`. -/
def unitsPerOne : Nat := 1 <<< 1074

/-- For `0 < mag < 2^1074` (a value below 1): the number of zeros right after
the decimal point of the value. -/
def leadingZeros : Nat → Nat → Nat → Nat
  | 0, _, j => j
  | fuel + 1, m, j => if unitsPerOne ≤ m * 10 then j else leadingZeros fuel (m * 10) (j + 1)

/-- The decimal exponent `n` of a positive value: `10^(n-1) ≤ value < 10^n`. -/
def decExp (mag : Nat) : Int :=
  let i := mag >>> 1074
  if i ≠ 0 then ((Nat.toDigits 10 i).length : Int)
  else -((leadingZeros 400 mag 0 : Nat) : Int)

/-- The `k`-digit decimals around the value `mag`: the integer `s` (with
`s × 10^(n-k)` reading back as `mag`, the nearer one when two do) or `none`. -/
def digitsAt (mag : Nat) (n : Int) (k : Nat) : Option Nat :=
  let e : Int := n - (k : Int)
  let p := if e < 0 then mag * 10 ^ (-e).toNat else mag
  let q := if e < 0 then unitsPerOne else (10 ^ e.toNat) <<< 1074
  let lo := p / q
  let hi := lo + 1
  let okLo := decide (ofDecimal false lo e = .fin false mag)
  let okHi := decide (ofDecimal false hi e = .fin false mag)
  let r := p % q
  if okLo && okHi then
    some (if 2 * r < q then lo else if q < 2 * r then hi else if lo % 2 = 0 then lo else hi)
  else if okLo then some lo
  else if okHi then some hi
  else none

/-- The shortest digits that read back as `mag`: tries `k = from, from+1, ...`;
returns the integer `s` and the number `k` of digits it stands for. -/
def shortestDigits (mag : Nat) (n : Int) : Nat → Nat → Option (Nat × Nat)
  | 0, _ => none
  | fuel + 1, k =>
    match digitsAt mag n k with
    | some s => some (s, k)
    | none => shortestDigits mag n fuel (k + 1)

/-- A run of `n` zero characters. -/
def zeros (n : Nat) : List Char := List.replicate n '0'

/-- Number::toString of a positive finite value from its digits `ds` (there are
`k` of them) and its decimal exponent `n`. -/
def layoutDigits (ds : List Char) (n : Int) : List Char :=
  let k : Int := ds.length
  if k ≤ n ∧ n ≤ 21 then ds ++ zeros (n - k).toNat
  else if 0 < n ∧ n ≤ 21 then ds.take n.toNat ++ '.' :: ds.drop n.toNat
  else if -6 < n ∧ n ≤ 0 then '0' :: '.' :: (zeros (-n).toNat ++ ds)
  else
    let e := n - 1
    let es := (if e < 0 then '-' else '+') :: Nat.toDigits 10 e.natAbs
    match ds with
    | [] => []
    | [c] => c :: 'e' :: es
    | c :: cs => c :: '.' :: (cs ++ 'e' :: es)

/-- Number::toString (radix 10) of a positive finite magnitude. -/
def magToString (mag : Nat) : List Char :=
  let n := decExp mag
  match shortestDigits mag n 17 1 with
  | none => []
  | some (s, k) =>
    if s = 10 ^ k then layoutDigits (Nat.toDigits 10 (10 ^ (k - 1))) (n + 1)
    else layoutDigits (Nat.toDigits 10 s) n

/-- Number::toString (radix 10). -/
def numToString : JSNum → String
  | .nan => "NaN"
  | .inf s => if s then "-Infinity" else "Infinity"
  | .fin s m =>
    if m = 0 then "0"
    else String.mk ((if s then ['-'] else []) ++ magToString m)

/-- Errors a call can throw. -/
inductive JSError where
  | rangeError
  deriving DecidableEq, Repr

/-- Results of calls that can throw are compared by value. -/
instance : DecidableEq (Except JSError String)
  | .ok a, .ok b => if h : a = b then isTrue (by rw [h]) else isFalse (fun e => h (by cases e; rfl))
  | .error a, .error b =>
    if h : a = b then isTrue (by rw [h]) else isFalse (fun e => h (by cases e; rfl))
  | .ok _, .error _ => isFalse (fun e => by cases e)
  | .error _, .ok _ => isFalse (fun e => by cases e)

/-- The decimal branch of `toFixed`: for a magnitude `mag` and `f` fraction
digits, the integer `n` nearest to `value × 10^f` (the larger one on a tie),
written with a decimal point before its last `f` digits. -/
def fixedDigits (mag : Nat) (f : Nat) : List Char :=
  let n := (2 * (mag * 10 ^ f) + unitsPerOne) / (2 * unitsPerOne)
  let m := if n = 0 then ['0'] else Nat.toDigits 10 n
  if f ≠ 0 then
    let m := if m.length ≤ f then zeros (f + 1 - m.length) ++ m else m
    m.take (m.length - f) ++ '.' :: m.drop (m.length - f)
  else m

/-- Number.prototype.toFixed(f): RangeError outside `0..100`; non-finite values
and magnitudes from `10^21` on are written by Number::toString. -/
def toFixed (x : JSNum) (f : Nat) : Except JSError String :=
  if 100 < f then .error .rangeError
  else
    match x with
    | .nan => .ok "NaN"
    | .inf s => .ok (if s then "-Infinity" else "Infinity")
    | .fin s m =>
      let sign := if s ∧ m ≠ 0 then ['-'] else []
      if 10 ^ 21 * unitsPerOne ≤ m then .ok (String.mk (sign ++ (numToString (.fin false m)).toList))
      else .ok (String.mk (sign ++ fixedDigits m f))

/-! ## Values and the two utilities of `App.jsx` -/

/-- The JavaScript values the dashboard's data can hold: a missing property or
argument, JSON `null`, a Number, a String. -/
inductive JSVal where
  | undefined
  | null
  | num (x : JSNum)
  | str (s : String)
  deriving DecidableEq, Repr

namespace JSVal

/-- ToBoolean: `undefined`, `null`, `0`, `-0`, `NaN` and `""` are falsy. -/
def truthy : JSVal → Bool
  | undefined => false
  | null => false
  | num x => x.truthy
  | str s => s != ""

/-- ToNumber. -/
def toNumber : JSVal → JSNum
  | undefined => .nan
  | null => .fin false 0
  | num x => x
  | str s => stringToNumber s

/-- ToString. -/
def toStr : JSVal → String
  | undefined => "undefined"
  | null => "null"
  | num x => numToString x
  | str s => s

end JSVal

/-- The global `parseFloat(v)`: `v` is converted to a string, then parsed. -/
def parseFloat (v : JSVal) : JSNum := parseFloatStr v.toStr

/-- The global `isNaN(v)`: `v` is converted to a Number first. -/
def jsIsNaN (v : JSVal) : Bool := v.toNumber.isNaN

/-- The formatter `fmt` of `App.jsx` (lines 4-11); `d = none` is a call without the second
argument, for which the parameter's default `2` is taken.
```
const fmt = (n, d = 2) => {
  if (n === undefined || n === null || isNaN(n)) return "-";
  const num = typeof n === "string" ? parseFloat(n) : n;
  if (Math.abs(num) >= 1_000_000_000) return (num / 1_000_000_000).toFixed(d) + "B";
  if (Math.abs(num) >= 1_000_000) return (num / 1_000_000).toFixed(d) + "M";
  if (Math.abs(num) >= 1_000) return (num / 1_000).toFixed(d) + "K";
  return num.toFixed(d);
};
``` -/
def fmt (n : JSVal) (d : Option Nat) : Except JSError String :=
  let d := d.getD 2
  if n = .undefined ∨ n = .null ∨ jsIsNaN n = true then .ok "-"
  else
    let num : JSNum :=
      match n with
      | .str _ => parseFloat n
      | .num x => x
      | _ => .nan -- not reached: `undefined` and `null` returned above
    if num.abs.ge (ofNat 1000000000) then
      (toFixed (num.div (ofNat 1000000000)) d).map (· ++ "B")
    else if num.abs.ge (ofNat 1000000) then
      (toFixed (num.div (ofNat 1000000)) d).map (· ++ "M")
    else if num.abs.ge (ofNat 1000) then
      (toFixed (num.div (ofNat 1000)) d).map (· ++ "K")
    else toFixed num d

/-- The helper `pct` of `App.jsx` (lines 13-17); the literal `0` it returns is `+0`.
```
const pct = (open, last) => {
  if (!open || !last) return 0;
  const o = parseFloat(open), l = parseFloat(last);
  return ((l - o) / o) * 100;
};
``` -/
def pct (opn last : JSVal) : JSNum :=
  if (!opn.truthy || !last.truthy) = true then .fin false 0
  else
    let o := parseFloat opn
    let l := parseFloat last
    ((l.sub o).div o).mul (ofNat 100)


/-- Whether a Number is finite with a magnitude below `10^21`: the range in
which `toFixed` writes plain decimal digits. -/
def belowE21 : JSNum → Bool
  | .fin _ m => decide (m < 10 ^ 21 * unitsPerOne)
  | _ => false

/-- The `d`-decimal rendering of a finite Number: a minus sign for a negative
value, the digits of the value rounded to `d` fraction digits (half away from
zero), with a decimal point before the last `d` of them when `d ≠ 0`. -/
def decimalRendering (x : JSNum) (d : Nat) : String :=
  match x with
  | .fin s m => String.mk ((if s ∧ m ≠ 0 then ['-'] else []) ++ fixedDigits m d)
  | _ => numToString x

/-! ## Objects and the streaming ticker handler -/

/-- A JSON object, by what reading a property gives: a property the object
does not have reads as `undefined`. -/
abbrev Obj := String → JSVal

/-- The empty object `{}`. -/
def emptyObj : Obj := fun _ => .undefined

/-- The object with property `k` set to `v` (the other properties as in `o`). -/
def Obj.set (o : Obj) (k : String) (v : JSVal) : Obj :=
  fun k' => if k' = k then v else o k'

/-- The JavaScript `a || b` on values. -/
def orElse (a b : JSVal) : JSVal := if a.truthy then a else b

/-- What `JSON.parse(ev.data)` followed by `msg?.data?.[0]` gives for a frame:
the parse throws, or there is no object at `data[0]`, or there is one. -/
inductive WsFrame (α : Type) where
  | unparsable
  | noItem
  | item (x : α)

/-- The object the ticker handler stores (lines 105-113), for the previous
state `prev` (`null` is `none`) and the captured `selected`:
```
{ ...(prev || { symbol: selected }),
  last: item.lastPr,
  open24h: item.open24h || prev?.open24h,
  high24h: item.high24h || prev?.high24h,
  low24h: item.low24h || prev?.low24h,
  baseVol: item.baseVol || prev?.baseVol,
  quoteVol: item.quoteVol || prev?.quoteVol }
``` -/
def mergeTicker (selected : String) (item : Obj) (prev : Option Obj) : Obj :=
  let base : Obj := prev.getD (emptyObj.set "symbol" (.str selected))
  let old : Obj := prev.getD emptyObj
  ((((((base.set "last" (item "lastPr")).set
    "open24h" (orElse (item "open24h") (old "open24h"))).set
    "high24h" (orElse (item "high24h") (old "high24h"))).set
    "low24h" (orElse (item "low24h") (old "low24h"))).set
    "baseVol" (orElse (item "baseVol") (old "baseVol"))).set
    "quoteVol" (orElse (item "quoteVol") (old "quoteVol")))

/-- The ticker socket's `onmessage` (lines 100-116) as a function of the frame
and the current `spotTicker`; a frame that does not parse is caught and logged.
```
ws.onmessage = (ev) => {
  try {
    const msg = JSON.parse(ev.data);
    const item = msg?.data?.[0];
    if (item?.lastPr) { setSpotTicker(prev => ({ ... })); }
  } catch (e) { console.warn("WS ticker parse", e); }
};
``` -/
def onTickerMessage (selected : String) (frame : WsFrame Obj) (prev : Option Obj) :
    Option Obj :=
  match frame with
  | .unparsable => prev
  | .noItem => prev
  | .item item =>
    if (item "lastPr").truthy then some (mergeTicker selected item prev) else prev

/-! ## The order book -/

/-- One price level `[price, size]` as the feed sends it. -/
abbrev Level := List String

/-- The `depth` state `{ bids, asks }`. -/
structure Book where
  bids : List Level
  asks : List Level
  deriving DecidableEq, Repr

/-- The initial `depth`, `{ bids: [], asks: [] }`. -/
def emptyBook : Book := { bids := [], asks := [] }

/-- The first data item of a book frame: `bids` and `asks` when present
(`none` is a missing or falsy property; an array, even empty, is truthy). -/
structure BookItem where
  bids : Option (List Level)
  asks : Option (List Level)

/-- The order-book socket's `onmessage` (lines 131-137):
`if (d?.bids && d?.asks) setDepth({ bids: d.bids, asks: d.asks })`. -/
def onBookMessage (frame : WsFrame BookItem) (depth : Book) : Book :=
  match frame with
  | .unparsable => depth
  | .noItem => depth
  | .item d =>
    match d.bids, d.asks with
    | some b, some a => { bids := b, asks := a }
    | _, _ => depth

/-! ## Streaming connections -/

/-- A call on a WebSocket of a channel, sockets being numbered in creation order. -/
inductive WsAction where
  | opened (id : Nat)
  | closed (id : Nat)
  deriving DecidableEq, Repr

/-- One streaming effect (ticker or order book): `current` is `wsRef.current`,
`cleanup` the socket the pending cleanup `() => ws.close()` will close, `log`
every `new WebSocket` and `close()` so far, oldest first. -/
structure Channel where
  nextId : Nat
  current : Option Nat
  cleanup : Option Nat
  log : List WsAction
  deriving DecidableEq, Repr

/-- No socket yet (before the first effect run). -/
def Channel.init : Channel := { nextId := 0, current := none, cleanup := none, log := [] }

/-- The body of the streaming effect (lines 91-95 and 118, 122-126 and 139):
```
if (!selected) return;
if (wsRef.current) wsRef.current.close();
const ws = new WebSocket(...);
wsRef.current = ws;
...
return () => ws.close();
``` -/
def Channel.runEffect (c : Channel) (selected : String) : Channel :=
  if selected = "" then { c with cleanup := none }
  else
    let log1 := match c.current with
      | some i => c.log ++ [.closed i]
      | none => c.log
    { nextId := c.nextId + 1, current := some c.nextId, cleanup := some c.nextId,
      log := log1 ++ [.opened c.nextId] }

/-- React running the pending cleanup of the effect, when there is one. -/
def Channel.runCleanup (c : Channel) : Channel :=
  match c.cleanup with
  | some i => { c with cleanup := none, log := c.log ++ [.closed i] }
  | none => c

/-- The sockets that are live (opened and not closed) after a log of calls. -/
def liveAfter : List WsAction → List Nat → List Nat
  | [], live => live
  | .opened i :: rest, live => liveAfter rest (live ++ [i])
  | .closed i :: rest, live => liveAfter rest (live.filter (· ≠ i))

/-- The live sockets of a channel. -/
def Channel.live (c : Channel) : List Nat := liveAfter c.log []

/-- At no moment of the log were two sockets live: after every prefix of the
calls at most one socket is opened and not closed. -/
def NeverTwoLive (log : List WsAction) : Prop :=
  ∀ k, (liveAfter (log.take k) []).length ≤ 1

/-- The invariant of a channel: the live sockets are exactly the one the
pending cleanup will close, and no two sockets were ever live together. -/
def ChanInv (c : Channel) : Prop :=
  c.live = c.cleanup.toList ∧ NeverTwoLive c.log

/-! ## News -/

/-- An `<item>` element of the parsed feed: the text of its first `title`,
`link` and `pubDate` descendants, when it has them. -/
structure FeedItem where
  title : Option String
  link : Option String
  pubDate : Option String
  deriving DecidableEq, Repr

/-- A row of the `news` state; the fallback rows have no `pub` property. -/
structure NewsItem where
  title : String
  link : String
  pub : Option String
  deriving DecidableEq, Repr

/-- What `new DOMParser().parseFromString(xml, "text/xml")` returns.  It never
throws: for text that is not well-formed XML it returns an error document
(one holding a `parsererror` element), whose `item` elements, if the browser
kept any, are `recovered`. -/
inductive XmlDoc where
  | wellFormed (items : List FeedItem)
  | parseError (recovered : List FeedItem)
  deriving DecidableEq, Repr

/-- The `item` elements `doc.querySelectorAll("item")` finds, in document order. -/
def XmlDoc.items : XmlDoc → List FeedItem
  | .wellFormed items => items
  | .parseError recovered => recovered

/-- How the news fetch ended: `fetch` or `r.text()` rejected, or the body text
arrived and was handed to the parser. -/
inductive NewsFetch where
  | rejected
  | body (doc : XmlDoc)
  deriving DecidableEq, Repr

/-- The expression `x || d` for a text that may be missing: a missing or empty text gives `d`. -/
def textOr (x : Option String) (d : String) : String :=
  match x with
  | some s => if s = "" then d else s
  | none => d

/-- The fixed two-item list of the `.catch` handler (lines 168-171). -/
def fallbackNews : List NewsItem :=
  [ { title := "What is Perpetual Futures?", link := "https://www.bitget.com/academy/en",
      pub := none },
    { title := "Funding Rate Explained", link := "https://www.bitget.com/academy/en",
      pub := none } ]

/-- The value the news effect (lines 154-172) passes to `setNews`:
```
.then(xml => {
  const doc = parser.parseFromString(xml, "text/xml");
  const items = [...doc.querySelectorAll("item")].slice(0, 8).map(it => ({
    title: it.querySelector("title")?.textContent || "",
    link: it.querySelector("link")?.textContent || "#",
    pub: it.querySelector("pubDate")?.textContent || "" }));
  setNews(items);
})
.catch(() => setNews([ ...two fixed rows... ]));
``` -/
def loadNews : NewsFetch → List NewsItem
  | .rejected => fallbackNews
  | .body doc =>
    (doc.items.take 8).map fun it =>
      { title := textOr it.title "", link := textOr it.link "#",
        pub := some (textOr it.pubDate "") }

/-! ## The component's state and its events -/

/-- How a poll `fetch(url).then(r => r.json())` ended: the fetch rejected, the
body did not parse as JSON, or it parsed to an envelope `j` whose `j?.data`,
when present and truthy, is the array given. -/
inductive PollResult where
  | networkError
  | parseError
  | json (data : Option (List Obj))

/-- The collection a parsed envelope gives, `setTickers(j?.data || [])`. -/
def polledTickers (data : Option (List Obj)) : List Obj := data.getD []

/-- The "Resolve selected ticker" effect (lines 85-88):
`setSpotTicker(tickers.find(t => t.symbol === selected) || null)`. -/
def resolveTicker (tickers : List Obj) (selected : String) : Option Obj :=
  tickers.find? fun t => decide (t "symbol" = .str selected)

/-- The state of `App` the claims are about. -/
structure AppState where
  mounted : Bool
  selected : String
  tickers : List Obj
  spotTicker : Option Obj
  depth : Book
  news : List NewsItem
  wsRef : Channel
  wsDepthRef : Channel

/-- What can happen to the mounted component. -/
inductive Event where
  | select (symbol : String)
  | tickerFrame (f : WsFrame Obj)
  | bookFrame (f : WsFrame BookItem)
  | tickersPolled (r : PollResult)
  | newsFetched (r : NewsFetch)
  | unmount

/-- The state after the first render and its effects: the `useState` initial
values (lines 51-59), the resolve effect on the empty table, and one run of
each streaming effect for the initial selection `"BTCUSDT"`. -/
def mount : AppState :=
  { mounted := true
    selected := "BTCUSDT"
    tickers := []
    spotTicker := resolveTicker [] "BTCUSDT"
    depth := emptyBook
    news := []
    wsRef := Channel.init.runEffect "BTCUSDT"
    wsDepthRef := Channel.init.runEffect "BTCUSDT" }

/-- One event.
* `select s` is the `<select>`'s `onChange` (`setSelected`, line 199): when the
  value changes, the effects depending on `selected` are re-run, each after its
  pending cleanup: the resolve effect and the two streaming effects.
* A frame is handled by the `onmessage` of the channel's open socket (whose
  closure holds the current `selected`); with no open socket none arrives.
* `tickersPolled` is the end of one `load()` of the 10 s poll (lines 75-78):
  `if (!alive) return; setTickers(j?.data || [])` on success, a logged warning
  on failure; new `tickers` re-run the resolve effect.
* `newsFetched` is the end of the one-shot news fetch.
* `unmount` runs the cleanups: `alive = false` and the sockets' `close()`. -/
def step (st : AppState) : Event → AppState
  | .select s =>
    if st.mounted = false ∨ s = st.selected then st
    else
      { st with
        selected := s
        spotTicker := resolveTicker st.tickers s
        wsRef := st.wsRef.runCleanup.runEffect s
        wsDepthRef := st.wsDepthRef.runCleanup.runEffect s }
  | .tickerFrame f =>
    if st.mounted = true ∧ st.wsRef.cleanup.isSome = true then
      { st with spotTicker := onTickerMessage st.selected f st.spotTicker }
    else st
  | .bookFrame f =>
    if st.mounted = true ∧ st.wsDepthRef.cleanup.isSome = true then
      { st with depth := onBookMessage f st.depth }
    else st
  | .tickersPolled r =>
    match r with
    | .networkError => st
    | .parseError => st
    | .json data =>
      if st.mounted = false then st
      else
        { st with
          tickers := polledTickers data
          spotTicker := resolveTicker (polledTickers data) st.selected }
  | .newsFetched r =>
    if st.mounted = false then st else { st with news := loadNews r }
  | .unmount =>
    if st.mounted = false then st
    else
      { st with
        mounted := false
        wsRef := st.wsRef.runCleanup
        wsDepthRef := st.wsDepthRef.runCleanup }

/-- The state after a sequence of events, from `st`. -/
def run (st : AppState) : List Event → AppState
  | [] => st
  | e :: es => run (step st e) es

/-! ## The futures ranking -/

/-- SortCompare's reading of a comparator result: `NaN` counts as `+0`. -/
def sortCompare {α : Type} (cmp : α → α → JSNum) (x y : α) : JSNum :=
  let v := cmp x y
  if v.isNaN then .fin false 0 else v

/-- Insert `x`, which stood before all of `ys` in the input, into the sorted
`ys`: it goes after the elements it compares greater than (`cmp x y > 0`) and
before the first one it does not. -/
def insertSorted {α : Type} (cmp : α → α → JSNum) (x : α) : List α → List α
  | [] => [x]
  | y :: ys =>
    if (sortCompare cmp x y).gt (.fin false 0) then y :: insertSorted cmp x ys
    else x :: y :: ys

/-- The method `Array.prototype.sort(cmp)`.  ECMAScript requires the sort to be stable;
for a consistent comparator the sorted order is then unique, and it is computed
here by insertion from the right. -/
def jsSort {α : Type} (cmp : α → α → JSNum) : List α → List α
  | [] => []
  | x :: xs => insertSorted cmp x (jsSort cmp xs)

/-- The numeric volume of a futures row, `parseFloat(row.quoteVol24h || 0)`. -/
def volumeOf (row : Obj) : JSNum :=
  parseFloat (orElse (row "quoteVol24h") (.num (.fin false 0)))

/-- The comparator of line 181:
`(a, b) => parseFloat(b.quoteVol24h||0) - parseFloat(a.quoteVol24h||0)`. -/
def byVolumeDesc (a b : Obj) : JSNum := (volumeOf b).sub (volumeOf a)

/-- The memo `topFutures` (lines 179-183):
```
const arr = [...futures];
arr.sort((a,b) => parseFloat(b.quoteVol24h||0) - parseFloat(a.quoteVol24h||0));
return arr.slice(0, 10);
``` -/
def topFutures (futures : List Obj) : List Obj :=
  (jsSort byVolumeDesc futures).take 10

/-! ## Sample data used to evaluate the definitions -/

/-- The six properties of a ticker item the handler reads. -/
def tickerFields : List String :=
  ["lastPr", "open24h", "high24h", "low24h", "baseVol", "quoteVol"]

/-- A snapshot of BTCUSDT as the poll delivers it. -/
def btcSnapshot : Obj :=
  ((((emptyObj.set "symbol" (.str "BTCUSDT")).set "last" (.str "50000")).set
    "open24h" (.str "49000")).set "high24h" (.str "51000")).set "baseVol" (.str "12.5")

/-- A streamed ticker item for another instrument, ETHUSDT. -/
def ethItem : Obj :=
  ((emptyObj.set "instId" (.str "ETHUSDT")).set "symbol" (.str "ETHUSDT")).set
    "lastPr" (.str "3000")

/-- A streamed item for BTCUSDT that carries a zero base volume as a number. -/
def zeroVolItem : Obj :=
  ((emptyObj.set "instId" (.str "BTCUSDT")).set "lastPr" (.str "50100")).set
    "baseVol" (.num (.fin false 0))

/-- A streamed item for BTCUSDT that carries a new high but no last price. -/
def highOnlyItem : Obj :=
  (emptyObj.set "instId" (.str "BTCUSDT")).set "high24h" (.str "52000")

/-- A streamed item for BTCUSDT with a last price and a new high. -/
def btcItem : Obj :=
  ((emptyObj.set "instId" (.str "BTCUSDT")).set "lastPr" (.str "50100")).set
    "high24h" (.str "52000")

/-- An order book received while BTCUSDT is selected. -/
def btcBook : Book := { bids := [["49990", "1.2"]], asks := [["50010", "0.8"]] }

/-- Equality `a == b` on Numbers (Number::equal): `NaN` equals nothing, `+0` equals `-0`. -/
def JSNum.eq : JSNum → JSNum → Bool
  | .nan, _ => false
  | _, .nan => false
  | .inf s, .inf t => s == t
  | .inf _, .fin _ _ => false
  | .fin _ _, .inf _ => false
  | .fin s m, .fin t n => decide (JSNum.units s m = JSNum.units t n)

/-- Whether two futures rows have the same numeric volume. -/
def sameVolume (x y : Obj) : Bool := (volumeOf x).eq (volumeOf y)

/-- Three futures rows: two with the volume `"5"` around one without a volume. -/
def sampleFutures : List Obj :=
  [ (emptyObj.set "instId" (.str "A_UMCBL")).set "quoteVol24h" (.str "5"),
    emptyObj.set "instId" (.str "B_UMCBL"),
    (emptyObj.set "instId" (.str "C_UMCBL")).set "quoteVol24h" (.str "5.0"),
    (emptyObj.set "instId" (.str "D_UMCBL")).set "quoteVol24h" (.str "70.25") ]

/-- Three futures rows whose middle one has a volume that is not numeric. -/
def mixedFutures : List Obj :=
  [ (emptyObj.set "instId" (.str "A_UMCBL")).set "quoteVol24h" (.str "1"),
    (emptyObj.set "instId" (.str "X_UMCBL")).set "quoteVol24h" (.str "abc"),
    (emptyObj.set "instId" (.str "B_UMCBL")).set "quoteVol24h" (.str "2") ]

/-! ## Facts about rounding -/

theorem shiftLeft_one_mul (m k : Nat) : m <<< k = m * (1 <<< k) := by
  simp [Nat.shiftLeft_eq]

theorem shiftLeft_one_pos (k : Nat) : 0 < 1 <<< k := by
  simp [Nat.shiftLeft_eq]

theorem shiftLeft_units (m : Nat) : m <<< 1074 = m * unitsPerOne :=
  shiftLeft_one_mul m 1074

theorem unitsPerOne_pos : 0 < unitsPerOne := shiftLeft_one_pos 1074

theorem bitLen_zero (fuel : Nat) : bitLen fuel 0 = 0 := by
  cases fuel <;> simp [bitLen]

theorem bitLen_pow_le (fuel n : Nat) (hn : n ≠ 0) : 2 ^ bitLen fuel n ≤ 2 * n := by
  induction fuel generalizing n with
  | zero => simp [bitLen]; omega
  | succ k ih =>
    simp only [bitLen, if_neg hn]
    by_cases h2 : n / 2 = 0
    · rw [h2, bitLen_zero]; simp; omega
    · have := ih (n / 2) h2
      rw [pow_succ]; omega

theorem rne_le (p q : Nat) : rne p q ≤ p / q + 1 := by
  unfold rne; simp only; split_ifs <;> omega

theorem rne_ge (p q : Nat) : p / q ≤ rne p q := by
  unfold rne; simp only; split_ifs <;> omega

theorem shift_le (f : Nat) : 2 ^ (bitLen 2098 f - 53) ≤ f + 1 := by
  by_cases hf : f = 0
  · subst hf; simp [bitLen_zero]
  · have h := bitLen_pow_le 2098 f hf
    by_cases hb : 53 ≤ bitLen 2098 f
    · have e : 2 ^ bitLen 2098 f = 2 ^ (bitLen 2098 f - 53) * 2 ^ 53 := by
        rw [← pow_add]; congr 1; omega
      rw [e] at h
      have : 2 ^ (bitLen 2098 f - 53) * 2 ≤ 2 ^ (bitLen 2098 f - 53) * 2 ^ 53 :=
        Nat.mul_le_mul_left _ (by norm_num)
      omega
    · have : bitLen 2098 f - 53 = 0 := by omega
      rw [this]; simp

theorem roundMag_le (p q : Nat) : roundMag p q ≤ 2 * (p / q) + 1 := by
  unfold roundMag
  simp only
  split_ifs with h
  · have := rne_le p q; omega
  · generalize hs : bitLen 2098 (p / q) - 53 = s
    have h1 := shift_le (p / q)
    rw [hs] at h1
    have h2 := rne_le p (q <<< s)
    rw [Nat.shiftLeft_eq, Nat.shiftLeft_eq] at *
    have h3 : p / (q * 2 ^ s) * 2 ^ s ≤ p / q := by
      rw [← Nat.div_div_eq_div_mul]; exact Nat.div_mul_le_self _ _
    calc rne p (q * 2 ^ s) * 2 ^ s ≤ (p / (q * 2 ^ s) + 1) * 2 ^ s :=
          Nat.mul_le_mul_right _ h2
      _ = p / (q * 2 ^ s) * 2 ^ s + 2 ^ s := by ring
      _ ≤ 2 * (p / q) + 1 := by omega

theorem roundMag_pos (p : Nat) (hp : 0 < p) : 0 < roundMag p 1 := by
  unfold roundMag
  simp only [Nat.div_one]
  split_ifs with h
  · have := rne_ge p 1; simp at this; omega
  · generalize hs : bitLen 2098 p - 53 = s
    have h1 := bitLen_pow_le 2098 p (by omega)
    rw [Nat.shiftLeft_eq, Nat.shiftLeft_eq, one_mul]
    have hle : 2 ^ s ≤ p := by
      by_cases hb : 53 ≤ bitLen 2098 p
      · have e : 2 ^ bitLen 2098 p = 2 ^ s * 2 ^ 53 := by
          rw [← pow_add]; congr 1; omega
        rw [e] at h1
        have : 2 ^ s * 2 ≤ 2 ^ s * 2 ^ 53 := Nat.mul_le_mul_left _ (by norm_num)
        omega
      · have : s = 0 := by omega
        rw [this]; simp; omega
    have h2 : 1 ≤ p / 2 ^ s := (Nat.one_le_div_iff (by positivity)).2 hle
    have h3 := rne_ge p (2 ^ s)
    have h4 : 0 < 2 ^ s := by positivity
    exact Nat.mul_pos (by omega) h4

/-! ## The formatter -/

theorem ofNat_e9 : ofNat 1000000000 = .fin false (10 ^ 9 * unitsPerOne) := by decide

theorem ofNat_e6 : ofNat 1000000 = .fin false (10 ^ 6 * unitsPerOne) := by decide

theorem ofNat_e3 : ofNat 1000 = .fin false (10 ^ 3 * unitsPerOne) := by decide

theorem e21_lt_overflow : 10 ^ 21 * unitsPerOne < overflowMag := by decide

theorem ge_fin (m c : Nat) : (JSNum.fin false m).ge (.fin false c) = decide (c ≤ m) := by
  by_cases h : c ≤ m
  · simp [JSNum.ge, JSNum.lt, JSNum.units, h]
  · simp [JSNum.ge, JSNum.lt, JSNum.units, h]; omega

/-- Dividing a finite Number by a whole number of units keeps it finite and, for
a dividend below `10^20`, in the range where `toFixed` writes decimal digits. -/
theorem div_belowE21 (s : Bool) (mag c : Nat) (hc : 0 < c)
    (hm : 2 * mag + 1 < 10 ^ 21 * unitsPerOne) :
    belowE21 ((JSNum.fin s mag).div (.fin false (c * unitsPerOne))) = true := by
  have hU := unitsPerOne_pos
  have hne : c * unitsPerOne ≠ 0 := Nat.pos_iff_ne_zero.1 (Nat.mul_pos hc hU)
  have hov := e21_lt_overflow
  have hf : mag <<< 1074 / (c * unitsPerOne) ≤ mag := by
    rw [shiftLeft_units, Nat.mul_div_mul_right _ _ hU]
    exact Nat.div_le_self _ _
  have hr := roundMag_le (mag <<< 1074) (c * unitsPerOne)
  simp only [JSNum.div, if_neg hne, ofRatio]
  rw [if_neg (by omega), if_pos (by omega)]
  simp only [belowE21, decide_eq_true_eq]
  omega

theorem toFixed_decimal (x : JSNum) (d : Nat) (hd : d ≤ 100) (hx : belowE21 x = true) :
    toFixed x d = .ok (decimalRendering x d) := by
  cases x with
  | fin s m =>
    simp only [belowE21, decide_eq_true_eq] at hx
    simp only [toFixed, decimalRendering]
    rw [if_neg (by omega), if_neg (by omega)]
  | inf s => simp [belowE21] at hx
  | nan => simp [belowE21] at hx

theorem fmt_fin (s : Bool) (mag : Nat) (d : Nat) :
    fmt (.num (.fin s mag)) (some d) =
      if 10 ^ 9 * unitsPerOne ≤ mag then
        (toFixed ((JSNum.fin s mag).div (ofNat 1000000000)) d).map (· ++ "B")
      else if 10 ^ 6 * unitsPerOne ≤ mag then
        (toFixed ((JSNum.fin s mag).div (ofNat 1000000)) d).map (· ++ "M")
      else if 10 ^ 3 * unitsPerOne ≤ mag then
        (toFixed ((JSNum.fin s mag).div (ofNat 1000)) d).map (· ++ "K")
      else toFixed (.fin s mag) d := by
  simp only [fmt, Option.getD, jsIsNaN, JSVal.toNumber, JSNum.isNaN, JSNum.abs]
  rw [if_neg (by simp)]
  simp only [ofNat_e9, ofNat_e6, ofNat_e3, ge_fin, decide_eq_true_eq]

/-- Shape of the decimal branch of `toFixed`: with `f ≠ 0` fraction digits the
text is a non-empty integer part, a point, and exactly `f` more characters. -/
theorem fixedDigits_shape (mag f : Nat) (hf : f ≠ 0) :
    ∃ a b : List Char, fixedDigits mag f = a ++ '.' :: b ∧ b.length = f ∧ a ≠ [] := by
  unfold fixedDigits
  simp only [hf, ne_eq, not_false_eq_true, if_true]
  generalize (if (2 * (mag * 10 ^ f) + unitsPerOne) / (2 * unitsPerOne) = 0 then ['0']
    else Nat.toDigits 10 ((2 * (mag * 10 ^ f) + unitsPerOne) / (2 * unitsPerOne))) = m0
  generalize hm : (if m0.length ≤ f then zeros (f + 1 - m0.length) ++ m0 else m0) = m
  have hlen : f + 1 ≤ m.length := by
    rw [← hm]
    split_ifs with h
    · simp [zeros]; omega
    · omega
  refine ⟨m.take (m.length - f), m.drop (m.length - f), rfl, ?_, ?_⟩
  · rw [List.length_drop]; omega
  · intro h
    have := congrArg List.length h
    rw [List.length_take] at this
    simp at this
    omega

/-! ## Facts about the streaming connections -/

theorem liveAfter_append (l1 l2 : List WsAction) (live : List Nat) :
    liveAfter (l1 ++ l2) live = liveAfter l2 (liveAfter l1 live) := by
  induction l1 generalizing live with
  | nil => rfl
  | cons a t ih => cases a <;> simp [liveAfter, ih]

theorem neverTwoLive_append (l1 l2 : List WsAction) (h1 : NeverTwoLive l1)
    (h2 : ∀ j, (liveAfter (l2.take j) (liveAfter l1 [])).length ≤ 1) :
    NeverTwoLive (l1 ++ l2) := by
  intro k
  rw [List.take_append_eq_append_take, liveAfter_append]
  by_cases hk : k ≤ l1.length
  · have e : k - l1.length = 0 := by omega
    rw [e, List.take_zero]
    exact h1 k
  · rw [List.take_of_length_le (show l1.length ≤ k by omega)]
    exact h2 _

theorem take_singleton_cases {α : Type} (a : α) (j : Nat) :
    [a].take j = [] ∨ [a].take j = [a] := by
  cases j <;> simp

theorem runCleanup_inv (c : Channel) (h : ChanInv c) :
    ChanInv c.runCleanup ∧ c.runCleanup.cleanup = none := by
  obtain ⟨hl, hn⟩ := h
  unfold Channel.runCleanup
  cases hc : c.cleanup with
  | none => exact ⟨⟨by simpa [hc] using hl, hn⟩, hc⟩
  | some i =>
    have hlive : liveAfter c.log [] = [i] := by simpa [Channel.live, hc] using hl
    refine ⟨⟨?_, ?_⟩, rfl⟩
    · simp [Channel.live, liveAfter_append, hlive, liveAfter]
    · refine neverTwoLive_append _ _ hn ?_
      intro j
      rcases take_singleton_cases (WsAction.closed i) j with e | e <;>
        simp [e, hlive, liveAfter]

theorem runEffect_inv (c : Channel) (s : String) (h : ChanInv c) (hc : c.cleanup = none) :
    ChanInv (c.runEffect s) := by
  obtain ⟨hl, hn⟩ := h
  have hlive : liveAfter c.log [] = [] := by simpa [Channel.live, hc] using hl
  unfold Channel.runEffect
  split_ifs with hs
  · exact ⟨by simpa [Channel.live, hc] using hlive, hn⟩
  · cases hr : c.current with
    | none =>
      refine ⟨?_, ?_⟩
      · simp [Channel.live, liveAfter_append, hlive, liveAfter]
      · refine neverTwoLive_append _ _ hn ?_
        intro j
        rcases take_singleton_cases (WsAction.opened c.nextId) j with e | e <;>
          simp [e, hlive, liveAfter]
    | some r =>
      have h1 : NeverTwoLive (c.log ++ [WsAction.closed r]) := by
        refine neverTwoLive_append _ _ hn ?_
        intro j
        rcases take_singleton_cases (WsAction.closed r) j with e | e <;>
          simp [e, hlive, liveAfter]
      have hlive1 : liveAfter (c.log ++ [WsAction.closed r]) [] = [] := by
        simp [liveAfter_append, hlive, liveAfter]
      refine ⟨?_, ?_⟩
      · simp [Channel.live, liveAfter_append, hlive, liveAfter]
      · refine neverTwoLive_append _ _ h1 ?_
        intro j
        rcases take_singleton_cases (WsAction.opened c.nextId) j with e | e <;>
          simp [e, hlive1, liveAfter]

theorem init_inv : ChanInv Channel.init := by
  refine ⟨rfl, ?_⟩
  intro k
  simp [Channel.init, liveAfter]

theorem step_inv (st : AppState) (e : Event)
    (h : ChanInv st.wsRef ∧ ChanInv st.wsDepthRef) :
    ChanInv (step st e).wsRef ∧ ChanInv (step st e).wsDepthRef := by
  obtain ⟨ht, hd⟩ := h
  cases e with
  | select s =>
    simp only [step]
    split_ifs
    · exact ⟨ht, hd⟩
    · exact ⟨runEffect_inv _ s (runCleanup_inv _ ht).1 (runCleanup_inv _ ht).2,
        runEffect_inv _ s (runCleanup_inv _ hd).1 (runCleanup_inv _ hd).2⟩
  | tickerFrame f => simp only [step]; split_ifs <;> exact ⟨ht, hd⟩
  | bookFrame f => simp only [step]; split_ifs <;> exact ⟨ht, hd⟩
  | tickersPolled r =>
    cases r with
    | networkError => exact ⟨ht, hd⟩
    | parseError => exact ⟨ht, hd⟩
    | json data => simp only [step]; split_ifs <;> exact ⟨ht, hd⟩
  | newsFetched r => simp only [step]; split_ifs <;> exact ⟨ht, hd⟩
  | unmount =>
    simp only [step]
    split_ifs
    · exact ⟨ht, hd⟩
    · exact ⟨(runCleanup_inv _ ht).1, (runCleanup_inv _ hd).1⟩

theorem run_inv (es : List Event) (st : AppState)
    (h : ChanInv st.wsRef ∧ ChanInv st.wsDepthRef) :
    ChanInv (run st es).wsRef ∧ ChanInv (run st es).wsDepthRef := by
  induction es generalizing st with
  | nil => exact h
  | cons e t ih => exact ih (step st e) (step_inv st e h)

theorem mount_inv : ChanInv mount.wsRef ∧ ChanInv mount.wsDepthRef :=
  ⟨runEffect_inv _ _ init_inv rfl, runEffect_inv _ _ init_inv rfl⟩

theorem live_le_one (c : Channel) (h : ChanInv c) : c.live.length ≤ 1 := by
  rw [h.1]
  cases c.cleanup <;> simp

/-! ## Facts about the order of Numbers and the sort -/

theorem units_not (s : Bool) (m : Nat) : JSNum.units (!s) m = -JSNum.units s m := by
  cases s <;> simp [JSNum.units]

theorem lt_asymm_num (a b : JSNum) (h : a.lt b = true) : b.lt a = false := by
  cases a <;> cases b <;> simp_all [JSNum.lt]
  omega

theorem ge_trans_num (a b c : JSNum) (hb : b.isNaN = false)
    (h1 : a.lt b = false) (h2 : b.lt c = false) : a.lt c = false := by
  cases a <;> cases b <;> cases c <;> simp_all [JSNum.lt, JSNum.isNaN]
  omega

theorem eq_iff_not_lt (a b : JSNum) (ha : a.isNaN = false) (hb : b.isNaN = false) :
    a.eq b = true ↔ (a.lt b = false ∧ b.lt a = false) := by
  cases a <;> cases b <;> simp_all [JSNum.lt, JSNum.eq, JSNum.isNaN]
  · omega
  · rename_i s t; cases s <;> cases t <;> simp

theorem ge_eq_not_lt (a b : JSNum) (ha : a.isNaN = false) (hb : b.isNaN = false) :
    a.ge b = !(a.lt b) := by
  cases a <;> cases b <;> simp_all [JSNum.ge, JSNum.isNaN]

theorem ofRatio_pos (neg : Bool) (p : Nat) (hp : 0 < p) :
    ofRatio neg p 1 = .inf neg ∨ ∃ m, 0 < m ∧ ofRatio neg p 1 = .fin neg m := by
  unfold ofRatio
  simp only
  split_ifs
  · exact Or.inl rfl
  · exact Or.inr ⟨_, roundMag_pos p hp, rfl⟩
  · exact Or.inl rfl

theorem gt_zero_signed (x : JSNum) (neg : Bool)
    (h : x = .inf neg ∨ ∃ m, 0 < m ∧ x = .fin neg m) :
    x.isNaN = false ∧ x.gt (.fin false 0) = !neg := by
  rcases h with rfl | ⟨m, hm, rfl⟩
  · simp [JSNum.isNaN, JSNum.gt, JSNum.lt]
  · cases neg
    · simp [JSNum.isNaN, JSNum.gt, JSNum.lt, JSNum.units]; omega
    · simp [JSNum.isNaN, JSNum.gt, JSNum.lt, JSNum.units]

/-- The sign of a difference, as SortCompare reads it: `b - a > 0` exactly when `a < b`. -/
theorem sub_gt_zero (a b : JSNum) (ha : a.isNaN = false) (hb : b.isNaN = false) :
    (if (b.sub a).isNaN then JSNum.fin false 0 else b.sub a).gt (.fin false 0) = a.lt b := by
  cases a with
  | nan => simp [JSNum.isNaN] at ha
  | inf s =>
    cases b with
    | nan => simp [JSNum.isNaN] at hb
    | inf t =>
      cases s <;> cases t <;>
        simp [JSNum.sub, JSNum.neg, JSNum.add, JSNum.isNaN, JSNum.gt, JSNum.lt, JSNum.units]
    | fin t n =>
      cases s <;>
        simp [JSNum.sub, JSNum.neg, JSNum.add, JSNum.isNaN, JSNum.gt, JSNum.lt, JSNum.units]
  | fin s m =>
    cases b with
    | nan => simp [JSNum.isNaN] at hb
    | inf t =>
      cases t <;>
        simp [JSNum.sub, JSNum.neg, JSNum.add, JSNum.isNaN, JSNum.gt, JSNum.lt, JSNum.units]
    | fin t n =>
      simp only [JSNum.sub, JSNum.neg, JSNum.add, units_not]
      by_cases hd : JSNum.units t n + -JSNum.units s m = 0
      · rw [if_pos hd]
        have e0 : ∀ z : Bool, JSNum.units z 0 = 0 := by
          intro z; cases z <;> simp [JSNum.units]
        have : ¬ (JSNum.units s m < JSNum.units t n) := by omega
        simp [JSNum.isNaN, JSNum.gt, JSNum.lt, e0, this]
      · rw [if_neg hd]
        have hp : 0 < (JSNum.units t n + -JSNum.units s m).natAbs := by omega
        obtain ⟨hn, hg⟩ := gt_zero_signed _ _ (ofRatio_pos
          (decide (JSNum.units t n + -JSNum.units s m < 0)) _ hp)
        rw [hn, if_neg (by simp), hg]
        simp only [JSNum.lt]
        by_cases hl : JSNum.units s m < JSNum.units t n
        · have : ¬ (JSNum.units t n + -JSNum.units s m < 0) := by omega
          simp [hl, this]
        · have : JSNum.units t n + -JSNum.units s m < 0 := by omega
          simp [hl, this]

theorem after_iff_lt (x y : Obj) (hx : (volumeOf x).isNaN = false)
    (hy : (volumeOf y).isNaN = false) :
    (sortCompare byVolumeDesc x y).gt (.fin false 0) = (volumeOf x).lt (volumeOf y) := by
  simp only [sortCompare, byVolumeDesc]
  exact sub_gt_zero _ _ hx hy

theorem insertSorted_perm {α : Type} (cmp : α → α → JSNum) (x : α) (l : List α) :
    (insertSorted cmp x l).Perm (x :: l) := by
  induction l with
  | nil => exact List.Perm.refl _
  | cons y ys ih =>
    simp only [insertSorted]
    split_ifs
    · exact (List.Perm.cons y ih).trans (List.Perm.swap x y ys)
    · exact List.Perm.refl _

theorem jsSort_perm {α : Type} (cmp : α → α → JSNum) (l : List α) : (jsSort cmp l).Perm l := by
  induction l with
  | nil => exact List.Perm.refl _
  | cons x xs ih =>
    simp only [jsSort]
    exact (insertSorted_perm cmp x _).trans (List.Perm.cons x ih)

theorem insertSorted_sorted (x : Obj) (l : List Obj) (hx : (volumeOf x).isNaN = false)
    (hl : ∀ r ∈ l, (volumeOf r).isNaN = false)
    (hs : l.Pairwise (fun a b => (volumeOf a).lt (volumeOf b) = false)) :
    (insertSorted byVolumeDesc x l).Pairwise
      (fun a b => (volumeOf a).lt (volumeOf b) = false) := by
  induction l with
  | nil => simp [insertSorted]
  | cons y ys ih =>
    have hy : (volumeOf y).isNaN = false := hl y (List.mem_cons_self _ _)
    have hys : ∀ r ∈ ys, (volumeOf r).isNaN = false :=
      fun r hr => hl r (List.mem_cons_of_mem _ hr)
    rw [List.pairwise_cons] at hs
    simp only [insertSorted, after_iff_lt x y hx hy]
    split_ifs with h
    · rw [List.pairwise_cons]
      refine ⟨?_, ih hys hs.2⟩
      intro z hz
      rcases List.mem_cons.1 ((insertSorted_perm byVolumeDesc x ys).mem_iff.1 hz) with rfl | hz2
      · exact lt_asymm_num _ _ h
      · exact hs.1 z hz2
    · have hxy : (volumeOf x).lt (volumeOf y) = false := by simpa using h
      rw [List.pairwise_cons]
      refine ⟨?_, List.pairwise_cons.2 hs⟩
      intro z hz
      rcases List.mem_cons.1 hz with rfl | hz2
      · exact hxy
      · exact ge_trans_num _ _ _ hy hxy (hs.1 z hz2)

theorem jsSort_sorted (l : List Obj) (hl : ∀ r ∈ l, (volumeOf r).isNaN = false) :
    (jsSort byVolumeDesc l).Pairwise (fun a b => (volumeOf a).lt (volumeOf b) = false) := by
  induction l with
  | nil => simp [jsSort]
  | cons x xs ih =>
    have hxs : ∀ r ∈ xs, (volumeOf r).isNaN = false :=
      fun r hr => hl r (List.mem_cons_of_mem _ hr)
    simp only [jsSort]
    refine insertSorted_sorted x _ (hl x (List.mem_cons_self _ _)) ?_ (ih hxs)
    intro r hr
    exact hxs r ((jsSort_perm byVolumeDesc xs).mem_iff.1 hr)

theorem insertSorted_filter (p : Obj → Bool) (x : Obj) (l : List Obj)
    (hx : (volumeOf x).isNaN = false) (hl : ∀ r ∈ l, (volumeOf r).isNaN = false)
    (hp : ∀ a b, p a = true → p b = true → (volumeOf a).isNaN = false →
      (volumeOf b).isNaN = false → (volumeOf a).lt (volumeOf b) = false) :
    (insertSorted byVolumeDesc x l).filter p = (x :: l).filter p := by
  induction l with
  | nil => simp [insertSorted]
  | cons y ys ih =>
    have hy : (volumeOf y).isNaN = false := hl y (List.mem_cons_self _ _)
    have hys : ∀ r ∈ ys, (volumeOf r).isNaN = false :=
      fun r hr => hl r (List.mem_cons_of_mem _ hr)
    simp only [insertSorted, after_iff_lt x y hx hy]
    split_ifs with h
    · rw [List.filter_cons, ih hys]
      by_cases hpx : p x = true
      · have hpy : p y = false := by
          by_contra hc
          have := hp x y hpx (by simpa using hc) hx hy
          rw [h] at this
          exact absurd this (by simp)
        simp [List.filter_cons, hpx, hpy]
      · simp [List.filter_cons, hpx]
    · rfl

theorem jsSort_filter (p : Obj → Bool) (l : List Obj)
    (hl : ∀ r ∈ l, (volumeOf r).isNaN = false)
    (hp : ∀ a b, p a = true → p b = true → (volumeOf a).isNaN = false →
      (volumeOf b).isNaN = false → (volumeOf a).lt (volumeOf b) = false) :
    (jsSort byVolumeDesc l).filter p = l.filter p := by
  induction l with
  | nil => simp [jsSort]
  | cons x xs ih =>
    have hxs : ∀ r ∈ xs, (volumeOf r).isNaN = false :=
      fun r hr => hl r (List.mem_cons_of_mem _ hr)
    simp only [jsSort]
    rw [insertSorted_filter p x _ (hl x (List.mem_cons_self _ _)) ?_ hp, List.filter_cons,
      List.filter_cons, ih hxs]
    intro r hr
    exact hxs r ((jsSort_perm byVolumeDesc xs).mem_iff.1 hr)

theorem sameVolume_class (r : Obj) (hr : (volumeOf r).isNaN = false) (a b : Obj)
    (ha : sameVolume a r = true) (hb : sameVolume b r = true)
    (hna : (volumeOf a).isNaN = false) (hnb : (volumeOf b).isNaN = false) :
    (volumeOf a).lt (volumeOf b) = false := by
  have h1 := (eq_iff_not_lt _ _ hna hr).1 ha
  have h2 := (eq_iff_not_lt _ _ hnb hr).1 hb
  exact ge_trans_num _ _ _ hr h1.1 h2.2

/-! ## Claims about the formatter -/

/-- C1 (as amended).  For every finite Number `n` (sign `s`, magnitude `mag`
counted in units of `2^-1074`) and every decimals count `d` from `0` to `100`,
`fmt(n, d)` is: the `d`-decimal rendering of `n / 10^9` followed by `"B"` when
`|n| ≥ 10^9` and that quotient is below `10^21` in magnitude; the `d`-decimal
rendering of `n / 10^6` followed by `"M"` when `10^6 ≤ |n| < 10^9`; the
`d`-decimal rendering of `n / 10^3` followed by `"K"` when `10^3 ≤ |n| < 10^6`;
the `d`-decimal rendering of `n` alone when `|n| < 10^3`.  For `undefined`,
`null` and `NaN` it is `"-"`.  With the default `d = 2`: `fmt(1500) = "1.50K"`,
`fmt(2300000) = "2.30M"`, `fmt(NaN) = "-"`. -/
theorem fmt_scales_by_thousands (s : Bool) (mag d : Nat) (hd : d ≤ 100) :
    (10 ^ 9 * unitsPerOne ≤ mag →
      belowE21 ((JSNum.fin s mag).div (ofNat 1000000000)) = true →
      fmt (.num (.fin s mag)) (some d) =
        .ok (decimalRendering ((JSNum.fin s mag).div (ofNat 1000000000)) d ++ "B")) ∧
    (10 ^ 6 * unitsPerOne ≤ mag → mag < 10 ^ 9 * unitsPerOne →
      fmt (.num (.fin s mag)) (some d) =
        .ok (decimalRendering ((JSNum.fin s mag).div (ofNat 1000000)) d ++ "M")) ∧
    (10 ^ 3 * unitsPerOne ≤ mag → mag < 10 ^ 6 * unitsPerOne →
      fmt (.num (.fin s mag)) (some d) =
        .ok (decimalRendering ((JSNum.fin s mag).div (ofNat 1000)) d ++ "K")) ∧
    (mag < 10 ^ 3 * unitsPerOne →
      fmt (.num (.fin s mag)) (some d) = .ok (decimalRendering (.fin s mag) d)) ∧
    fmt .undefined (some d) = .ok "-" ∧
    fmt .null (some d) = .ok "-" ∧
    fmt (.num .nan) (some d) = .ok "-" ∧
    fmt (.num (ofNat 1500)) none = .ok "1.50K" ∧
    fmt (.num (ofNat 2300000)) none = .ok "2.30M" ∧
    fmt (.num .nan) none = .ok "-" := by
  have hU := unitsPerOne_pos
  refine ⟨?_, ?_, ?_, ?_, by simp [fmt], by simp [fmt], by simp [fmt, jsIsNaN, JSVal.toNumber,
    JSNum.isNaN], by decide, by decide, by decide⟩
  · intro h9 hq
    rw [fmt_fin, if_pos h9, toFixed_decimal _ _ hd hq]
    rfl
  · intro h6 h9
    have hq := div_belowE21 s mag (10 ^ 6) (by norm_num) (by omega)
    rw [← ofNat_e6] at hq
    rw [fmt_fin, if_neg (by omega), if_pos h6, toFixed_decimal _ _ hd hq]
    rfl
  · intro h3 h6
    have hq := div_belowE21 s mag (10 ^ 3) (by norm_num) (by omega)
    rw [← ofNat_e3] at hq
    rw [fmt_fin, if_neg (by omega), if_neg (by omega), if_pos h3, toFixed_decimal _ _ hd hq]
    rfl
  · intro h3
    rw [fmt_fin, if_neg (by omega), if_neg (by omega), if_neg (by omega),
      toFixed_decimal _ _ hd (by simp only [belowE21, decide_eq_true_eq]; omega)]

/-- Witness of C1: at `n = 2.5 × 10^9` and `d = 1` the billions branch gives `"2.5B"`. -/
theorem fmt_scales_by_thousands_witness :
    fmt (.num (.fin false (2500000000 * unitsPerOne))) (some 1) = .ok "2.5B" :=
  ((fmt_scales_by_thousands false (2500000000 * unitsPerOne) 1 (by decide)).1
    (by decide) (by decide)).trans (by decide)

/-- C1 as stated fails: `fmt(1e30, 2)` is `"1e+21B"`, not the 2-decimal
rendering `"1000000000000000000000.00"` of the quotient `10^21` followed by
`"B"`; and for the decimals count `101` the call throws a RangeError. -/
theorem fmt_not_always_decimal :
    fmt (.num (ofDecimal false 1 30)) (some 2) = .ok "1e+21B" ∧
    (ofDecimal false 1 30).div (ofNat 1000000000) = ofDecimal false 1 21 ∧
    decimalRendering (ofDecimal false 1 21) 2 = "1000000000000000000000.00" ∧
    fmt (.num (ofNat 1500)) (some 101) = .error .rangeError := by
  decide

/-- C2.  For every pair of inputs `opn`, `last`: `pct` returns `0` when either
is falsy, and otherwise `((l - o) / o) * 100` with `o = parseFloat(opn)` and
`l = parseFloat(last)`, the numeric values of the inputs.  In particular
`pct(100, 110) = 10`, `pct(0, 110) = 0` and `pct(undefined, 110) = 0`. -/
theorem pct_percentage_change (opn last : JSVal) :
    (opn.truthy = false ∨ last.truthy = false → pct opn last = .fin false 0) ∧
    (opn.truthy = true → last.truthy = true →
      pct opn last =
        (((parseFloat last).sub (parseFloat opn)).div (parseFloat opn)).mul (ofNat 100)) ∧
    pct (.num (ofNat 100)) (.num (ofNat 110)) = ofNat 10 ∧
    pct (.num (ofNat 0)) (.num (ofNat 110)) = ofNat 0 ∧
    pct .undefined (.num (ofNat 110)) = ofNat 0 := by
  refine ⟨?_, ?_, by decide, by decide, by decide⟩
  · intro h
    rcases h with h | h <;> simp [pct, h]
  · intro ho hl
    simp [pct, ho, hl]

/-- Witness of C2: the two branches at concrete inputs, the numeric strings
`"3"` and `"4"` (a change of a third, in binary64) and a `null` open. -/
theorem pct_percentage_change_witness :
    pct (.str "3") (.str "4") = ofDecimal false 3333333333333333 (-14) ∧
    pct .null (.str "4") = .fin false 0 :=
  ⟨((pct_percentage_change (.str "3") (.str "4")).2.1 (by decide) (by decide)).trans
      (by decide),
    (pct_percentage_change .null (.str "4")).1 (Or.inl (by decide))⟩

/-- C10 (as amended).  `pct` treats the Number zero as "no data": for an `open`
that is the number `0` (of either sign) and every `last`, `pct(open, last) = 0`.
A string is falsy only when empty: for a non-empty `open` string and a truthy
`last` the quotient by the parsed `open` is computed, also when it parses to zero. -/
theorem pct_zero_number_open (s : Bool) (last : JSVal) (txt : String) :
    pct (.num (.fin s 0)) last = .fin false 0 ∧
    (txt ≠ "" → last.truthy = true →
      pct (.str txt) last =
        (((parseFloat last).sub (parseFloat (.str txt))).div
          (parseFloat (.str txt))).mul (ofNat 100)) := by
  constructor
  · simp [pct, JSVal.truthy, JSNum.truthy]
  · intro ht hl
    have ho : (JSVal.str txt).truthy = true := by simp [JSVal.truthy, ht]
    simp [pct, ho, hl]

/-- Witness of C10: the open `-0` with a numeric last, and the open `"0"`. -/
theorem pct_zero_number_open_witness :
    pct (.num (.fin true 0)) (.str "110") = .fin false 0 ∧
    pct (.str "0") (.str "110") = .inf false :=
  ⟨(pct_zero_number_open true (.str "110") "0").1,
    ((pct_zero_number_open true (.str "110") "0").2 (by decide) (by decide)).trans
      (by decide)⟩

/-- C10 as stated fails: the open `"0"`, a numeric string whose value is zero, is
truthy, so `pct("0", "110")` divides by the parsed zero and is `Infinity`, not `0`. -/
theorem pct_string_zero_divides :
    parseFloat (.str "0") = .fin false 0 ∧
    pct (.str "0") (.str "110") = .inf false ∧
    pct (.str "0") (.str "110") ≠ .fin false 0 := by
  decide

/-! ## Claims about the streaming handlers -/

theorem set_ne (o : Obj) (k k2 : String) (v : JSVal) (h : k2 ≠ k) : (o.set k v) k2 = o k2 := by
  simp [Obj.set, h]

theorem mergeTicker_congr (selected : String) (prev : Option Obj) (item item2 : Obj)
    (h : ∀ k ∈ tickerFields, item2 k = item k) :
    mergeTicker selected item2 prev = mergeTicker selected item prev := by
  simp only [tickerFields, List.mem_cons, List.mem_singleton, List.not_mem_nil, or_false,
    forall_eq_or_imp, forall_eq] at h
  obtain ⟨h1, h2, h3, h4, h5, h6⟩ := h
  simp only [mergeTicker, h1, h2, h3, h4, h5, h6]

/-- C3 (as amended).  The ticker handler leaves `spotTicker` unchanged when the
frame does not parse, when it has no data item, and when its item has no truthy
`lastPr`.  It never reads the item's symbol: changing any property of the item
other than the six ticker fields (its `symbol` or `instId` among them) does not
change what the handler does. -/
theorem ticker_message_ignores_symbol (selected : String) (prev : Option Obj) (item : Obj)
    (k : String) (v : JSVal) :
    onTickerMessage selected .unparsable prev = prev ∧
    onTickerMessage selected .noItem prev = prev ∧
    ((item "lastPr").truthy = false → onTickerMessage selected (.item item) prev = prev) ∧
    (k ∉ tickerFields →
      onTickerMessage selected (.item (item.set k v)) prev =
        onTickerMessage selected (.item item) prev) := by
  refine ⟨rfl, rfl, ?_, ?_⟩
  · intro h
    simp [onTickerMessage, h]
  · intro hk
    have hc : ∀ f ∈ tickerFields, (item.set k v) f = item f := by
      intro f hf
      exact set_ne item k f v (fun e => hk (e ▸ hf))
    have h1 : (item.set k v) "lastPr" = item "lastPr" := hc _ (by simp [tickerFields])
    simp only [onTickerMessage, h1, mergeTicker_congr selected prev item (item.set k v) hc]

/-- Witness of C3: relabelling the BTCUSDT item as ETHUSDT changes nothing. -/
theorem ticker_message_ignores_symbol_witness :
    onTickerMessage "BTCUSDT" (.item (btcItem.set "instId" (.str "ETHUSDT")))
        (some btcSnapshot) =
      onTickerMessage "BTCUSDT" (.item btcItem) (some btcSnapshot) :=
  (ticker_message_ignores_symbol "BTCUSDT" (some btcSnapshot) btcItem "instId"
    (.str "ETHUSDT")).2.2.2 (by decide)

/-- C3 as stated fails: with BTCUSDT selected and its polled snapshot displayed
(last price `"50000"`), handling a streamed item for ETHUSDT overwrites the
displayed last price with `"3000"`. -/
theorem ticker_message_other_symbol_mutates :
    ethItem "symbol" = .str "ETHUSDT" ∧
    (run mount [.tickersPolled (.json (some [btcSnapshot]))]).selected = "BTCUSDT" ∧
    (run mount [.tickersPolled (.json (some [btcSnapshot]))]).spotTicker.map
        (fun o => o "last") = some (.str "50000") ∧
    (run mount [.tickersPolled (.json (some [btcSnapshot])),
        .tickerFrame (.item ethItem)]).selected = "BTCUSDT" ∧
    (run mount [.tickersPolled (.json (some [btcSnapshot])),
        .tickerFrame (.item ethItem)]).spotTicker.map
        (fun o => o "last") = some (.str "3000") ∧
    onTickerMessage "BTCUSDT" (.item ethItem) (some btcSnapshot) ≠ some btcSnapshot := by
  refine ⟨by decide, by decide, by decide, by decide, by decide, ?_⟩
  intro h
  have h2 := congrArg (fun r : Option Obj => r.map (fun o => o "last")) h
  revert h2
  decide

/-- C4 (as amended).  A streamed item with a truthy `lastPr` is merged into the
previous snapshot `prev`: the merged snapshot's `last` is the item's `lastPr`;
each of `open24h`, `high24h`, `low24h`, `baseVol`, `quoteVol` is the item's
value when that value is truthy and `prev`'s value otherwise; every other
property is that of `prev` (of `{symbol: selected}` when `prev` is `null`). -/
theorem ticker_merge_fields (selected : String) (item : Obj) (prev : Option Obj)
    (h : (item "lastPr").truthy = true) :
    onTickerMessage selected (.item item) prev = some (mergeTicker selected item prev) ∧
    mergeTicker selected item prev "last" = item "lastPr" ∧
    (∀ f ∈ ["open24h", "high24h", "low24h", "baseVol", "quoteVol"],
      mergeTicker selected item prev f =
        if (item f).truthy then item f else (prev.getD emptyObj) f) ∧
    (∀ k, k ∉ ["last", "open24h", "high24h", "low24h", "baseVol", "quoteVol"] →
      mergeTicker selected item prev k =
        (prev.getD (emptyObj.set "symbol" (.str selected))) k) := by
  refine ⟨by simp [onTickerMessage, h], by simp [mergeTicker, Obj.set], ?_, ?_⟩
  · intro f hf
    simp only [List.mem_cons, List.mem_singleton, List.not_mem_nil, or_false] at hf
    rcases hf with rfl | rfl | rfl | rfl | rfl <;> simp [mergeTicker, Obj.set, orElse]
  · intro k hk
    simp only [List.mem_cons, List.mem_singleton, List.not_mem_nil, or_false, not_or] at hk
    obtain ⟨h1, h2, h3, h4, h5, h6⟩ := hk
    simp [mergeTicker, Obj.set, h1, h2, h3, h4, h5, h6]

/-- Witness of C4: merging a BTCUSDT item with a last price and a new high. -/
theorem ticker_merge_fields_witness :
    mergeTicker "BTCUSDT" btcItem (some btcSnapshot) "last" = .str "50100" ∧
    mergeTicker "BTCUSDT" btcItem (some btcSnapshot) "high24h" = .str "52000" ∧
    mergeTicker "BTCUSDT" btcItem (some btcSnapshot) "open24h" = .str "49000" :=
  have w := ticker_merge_fields "BTCUSDT" btcItem (some btcSnapshot) (by decide)
  ⟨w.2.1.trans (by decide), (w.2.2.1 "high24h" (by decide)).trans (by decide),
    (w.2.2.1 "open24h" (by decide)).trans (by decide)⟩

/-- C4 as stated fails: an item that carries `baseVol` as the number `0` leaves
the previous `baseVol` `"12.5"` in place, and an item that carries a new
`high24h` but no `lastPr` is not merged at all (the previous high `"51000"` stays). -/
theorem ticker_merge_drops_carried_values :
    zeroVolItem "baseVol" = .num (.fin false 0) ∧
    (onTickerMessage "BTCUSDT" (.item zeroVolItem) (some btcSnapshot)).map
        (fun o => o "baseVol") = some (.str "12.5") ∧
    highOnlyItem "high24h" = .str "52000" ∧
    (onTickerMessage "BTCUSDT" (.item highOnlyItem) (some btcSnapshot)).map
        (fun o => o "high24h") = some (.str "51000") := by
  decide

/-- C5 (as amended).  Changing the selected instrument does not touch the order
book: `depth` after the change is `depth` before it, so the book received for
the old instrument stays displayed.  `depth` changes only when an order-book
frame is handled whose item carries both `bids` and `asks`, and that frame
replaces it whole: the handler returns `{bids, asks}` of such an item and the
previous `depth` for every other frame (unparsable, no item, `bids` or `asks`
missing); a book frame is handled by the open book socket of the mounted
component; and any event after which `depth` differs is such a frame, `depth`
then being exactly its `bids` and `asks`. -/
theorem select_keeps_depth (st : AppState) (s : String) (e : Event)
    (f : WsFrame BookItem) (b a : List Level) (d : Book) :
    (step st (.select s)).depth = st.depth ∧
    ((∀ g, e ≠ .bookFrame g) → (step st e).depth = st.depth) ∧
    onBookMessage (.item { bids := some b, asks := some a }) d = { bids := b, asks := a } ∧
    onBookMessage .unparsable d = d ∧
    onBookMessage .noItem d = d ∧
    (∀ x : BookItem, x.bids = none ∨ x.asks = none → onBookMessage (.item x) d = d) ∧
    (step st (.bookFrame f)).depth =
      (if st.mounted = true ∧ st.wsDepthRef.cleanup.isSome = true
        then onBookMessage f st.depth else st.depth) ∧
    ((step st e).depth ≠ st.depth →
      ∃ b2 a2, e = .bookFrame (.item { bids := some b2, asks := some a2 }) ∧
        (step st e).depth = { bids := b2, asks := a2 }) := by
  have hother : ∀ e2 : Event, (∀ g, e2 ≠ .bookFrame g) → (step st e2).depth = st.depth := by
    intro e2 h
    cases e2 with
    | select s2 => simp only [step]; split_ifs <;> rfl
    | tickerFrame g => simp only [step]; split_ifs <;> rfl
    | bookFrame g => exact absurd rfl (h g)
    | tickersPolled r =>
      cases r with
      | networkError => rfl
      | parseError => rfl
      | json data => simp only [step]; split_ifs <;> rfl
    | newsFetched r => simp only [step]; split_ifs <;> rfl
    | unmount => simp only [step]; split_ifs <;> rfl
  have hmiss : ∀ x : BookItem, x.bids = none ∨ x.asks = none →
      onBookMessage (.item x) d = d := by
    intro x hx
    obtain ⟨xb, xa⟩ := x
    cases xb <;> cases xa <;> simp_all [onBookMessage]
  have hstep : ∀ g : WsFrame BookItem, (step st (.bookFrame g)).depth =
      (if st.mounted = true ∧ st.wsDepthRef.cleanup.isSome = true
        then onBookMessage g st.depth else st.depth) := by
    intro g
    simp only [step]
    split_ifs <;> rfl
  refine ⟨hother _ (by intro g; simp), hother e, rfl, rfl, rfl, hmiss, hstep f, ?_⟩
  intro hne
  cases e with
  | bookFrame g =>
    rw [hstep g] at hne ⊢
    split_ifs at hne ⊢ with hc
    · cases g with
      | unparsable => exact absurd rfl hne
      | noItem => exact absurd rfl hne
      | item x =>
        obtain ⟨xb, xa⟩ := x
        cases xb with
        | none => exact absurd rfl hne
        | some b2 =>
          cases xa with
          | none => exact absurd rfl hne
          | some a2 => exact ⟨b2, a2, rfl, rfl⟩
    · exact absurd rfl hne
  | select s2 => exact absurd (hother _ (by intro g; simp)) hne
  | tickerFrame g => exact absurd (hother _ (by intro g2; simp)) hne
  | tickersPolled r => exact absurd (hother _ (by intro g; simp)) hne
  | newsFetched r => exact absurd (hother _ (by intro g; simp)) hne
  | unmount => exact absurd (hother _ (by intro g; simp)) hne

/-- Witness of C5: after a book for BTCUSDT arrived, selecting ETHUSDT leaves
that book as the `depth`; a later book frame with both sides replaces it whole,
and one without `asks` does not. -/
theorem select_keeps_depth_witness :
    (step (step mount (.bookFrame (.item { bids := some btcBook.bids, asks := some btcBook.asks })))
      (.select "ETHUSDT")).depth = btcBook ∧
    onBookMessage (.item { bids := some [["2999", "4"]], asks := some [] }) btcBook =
      { bids := [["2999", "4"]], asks := [] } ∧
    onBookMessage (.item { bids := some [["2999", "4"]], asks := none }) btcBook = btcBook :=
  have w := select_keeps_depth
    (step mount (.bookFrame (.item { bids := some btcBook.bids, asks := some btcBook.asks })))
    "ETHUSDT" .unmount .noItem [["2999", "4"]] [] btcBook
  ⟨w.1.trans (by decide), w.2.2.1,
    w.2.2.2.2.2.1 { bids := some [["2999", "4"]], asks := none } (Or.inr rfl)⟩

/-- C5 as stated fails: after a book for BTCUSDT was received, selecting
ETHUSDT leaves that book displayed under the new selection; it is not reset
to the empty book. -/
theorem select_shows_stale_book :
    (run mount [.bookFrame (.item { bids := some btcBook.bids, asks := some btcBook.asks }),
      .select "ETHUSDT"]).selected = "ETHUSDT" ∧
    (run mount [.bookFrame (.item { bids := some btcBook.bids, asks := some btcBook.asks }),
      .select "ETHUSDT"]).depth = btcBook ∧
    btcBook ≠ emptyBook := by
  decide

/-! ## Claims about polling and news -/

/-- C7.  A spot-ticker poll whose fetch fails (network error, or a body that
does not parse) leaves the state, and so the `tickers` collection, as it was;
a successful poll of the mounted component replaces the whole collection by the
envelope's `data` (by `[]` when the envelope has none). -/
theorem failed_poll_keeps_tickers (st : AppState) (data : Option (List Obj)) :
    (step st (.tickersPolled .networkError)).tickers = st.tickers ∧
    (step st (.tickersPolled .parseError)).tickers = st.tickers ∧
    step st (.tickersPolled .networkError) = st ∧
    step st (.tickersPolled .parseError) = st ∧
    (st.mounted = true →
      (step st (.tickersPolled (.json data))).tickers = data.getD []) := by
  refine ⟨rfl, rfl, rfl, rfl, ?_⟩
  intro h
  simp [step, h, polledTickers]

/-- Witness of C7: a successful poll on the freshly mounted component. -/
theorem failed_poll_keeps_tickers_witness :
    ((step mount (.tickersPolled (.json (some [btcSnapshot])))).tickers).length = 1 :=
  (congrArg List.length
    ((failed_poll_keeps_tickers mount (some [btcSnapshot])).2.2.2.2 (by decide))).trans
    (by decide)

/-- C8 (the code at the failing input).  When the body is not well-formed XML
the parser returns an error document instead of throwing, so the `.catch`
handler is not run: with no `item` element recovered the news list becomes
`[]`, not the two-item placeholder list.  The placeholder list is what a
rejected fetch gives, and no parsed body ever gives it; a well-formed feed of
`n` items gives its first `min(8, n)` items in feed order. -/
theorem news_parse_error_skips_fallback (doc : XmlDoc) (items : List FeedItem) :
    loadNews (.body (.parseError [])) = [] ∧
    loadNews (.body (.parseError [])) ≠ fallbackNews ∧
    loadNews (.body doc) ≠ fallbackNews ∧
    loadNews .rejected = fallbackNews ∧
    fallbackNews.map (fun n => n.title) =
      ["What is Perpetual Futures?", "Funding Rate Explained"] ∧
    (loadNews (.body (.wellFormed items))).length = min 8 items.length ∧
    (loadNews (.body (.wellFormed items))).map (fun n => n.title) =
      (items.take 8).map (fun it => textOr it.title "") := by
  refine ⟨rfl, by decide, ?_, rfl, rfl, by simp [loadNews, XmlDoc.items], ?_⟩
  · intro h
    have h2 := congrArg (fun l : List NewsItem => l.map (fun n => n.pub.isSome)) h
    simp only [loadNews, fallbackNews, List.map_map, List.map_cons, List.map_nil,
      Option.isSome_none] at h2
    cases hl : List.take 8 doc.items with
    | nil => rw [hl] at h2; simp at h2
    | cons a t => rw [hl] at h2; simp at h2
  · simp [loadNews, XmlDoc.items, List.map_map, Function.comp_def]

/-! ## Claims about the streaming connections -/

/-- C9.  In every state reachable from mount by any sequence of events
(selection changes, unmount, and the frames and fetch results in between), the
ticker channel and the order-book channel each have at most one live socket
(opened and not closed); and at no earlier moment were two sockets of a channel
live: in the channel's log of calls every `new WebSocket` comes after the
`close()` of the socket opened before it. -/
theorem at_most_one_live_socket (es : List Event) :
    (run mount es).wsRef.live.length ≤ 1 ∧
    (run mount es).wsDepthRef.live.length ≤ 1 ∧
    NeverTwoLive (run mount es).wsRef.log ∧
    NeverTwoLive (run mount es).wsDepthRef.log :=
  have h := run_inv es mount mount_inv
  ⟨live_le_one _ h.1, live_le_one _ h.2, h.1.2, h.2.2⟩

/-- The log of the ticker channel over one selection change: the socket of the
old selection is closed (by the cleanup, and again through `wsRef.current`)
before the socket of the new selection is opened. -/
theorem select_closes_then_opens :
    (run mount [.select "ETHUSDT"]).wsRef.log =
      [.opened 0, .closed 0, .closed 0, .opened 1] ∧
    (run mount [.select "ETHUSDT"]).wsRef.live = [1] ∧
    (run mount [.select "ETHUSDT", .unmount]).wsRef.live = [] := by
  decide

/-! ## Claims about the futures ranking -/

/-- C6 (as amended).  For every futures list whose rows have numeric volumes
(`parseFloat(row.quoteVol24h || 0)` is not NaN; a missing volume counts as `0`),
`topFutures` is the first 10 rows of the list stable-sorted descending by that
volume: there is a rearrangement `sorted` of the list, non-increasing in
volume, in which the rows of any one volume stand in their input order, and
`topFutures` is its first 10 rows.  So the volumes of the result are
non-increasing, rows of equal volume keep their relative input order, and the
result has `min(10, n)` rows for an input of `n` rows. -/
theorem topFutures_stable_desc (futures : List Obj)
    (hnum : ∀ r ∈ futures, (volumeOf r).isNaN = false) :
    (∃ sorted : List Obj,
      sorted.Perm futures ∧
      sorted.Pairwise (fun a b => (volumeOf a).ge (volumeOf b) = true) ∧
      (∀ r ∈ futures,
        sorted.filter (fun x => sameVolume x r) = futures.filter (fun x => sameVolume x r)) ∧
      topFutures futures = sorted.take 10) ∧
    (topFutures futures).Pairwise (fun a b => (volumeOf a).ge (volumeOf b) = true) ∧
    (∀ r ∈ futures,
      (topFutures futures).filter (fun x => sameVolume x r) <+:
        futures.filter (fun x => sameVolume x r)) ∧
    (topFutures futures).length = min 10 futures.length ∧
    (∀ row : Obj, row "quoteVol24h" = .undefined → volumeOf row = .fin false 0) := by
  have hperm := jsSort_perm byVolumeDesc futures
  have hmem : ∀ r ∈ jsSort byVolumeDesc futures, (volumeOf r).isNaN = false :=
    fun r hr => hnum r (hperm.mem_iff.1 hr)
  have hsorted : (jsSort byVolumeDesc futures).Pairwise
      (fun a b => (volumeOf a).ge (volumeOf b) = true) := by
    refine (jsSort_sorted futures hnum).imp_of_mem ?_
    intro a b ha hb h
    rw [ge_eq_not_lt _ _ (hmem a ha) (hmem b hb), h]
    rfl
  have hstable : ∀ r ∈ futures,
      (jsSort byVolumeDesc futures).filter (fun x => sameVolume x r) =
        futures.filter (fun x => sameVolume x r) :=
    fun r hr => jsSort_filter _ futures hnum (sameVolume_class r (hnum r hr))
  refine ⟨⟨_, hperm, hsorted, hstable, rfl⟩, ?_, ?_, ?_, ?_⟩
  · exact hsorted.sublist (List.take_sublist _ _)
  · intro r hr
    rw [← hstable r hr]
    exact List.IsPrefix.filter _ (List.take_prefix 10 _)
  · simp [topFutures, hperm.length_eq]
  · intro row h
    simp only [volumeOf, h, orElse, JSVal.truthy]
    decide

/-- Witness of C6: four rows, two of them with the same volume `5` and one
without a volume, are ranked D, A, C, B. -/
theorem topFutures_stable_desc_witness :
    (topFutures sampleFutures).length = min 10 sampleFutures.length ∧
    (topFutures sampleFutures).map (fun r => r "instId") =
      [.str "D_UMCBL", .str "A_UMCBL", .str "C_UMCBL", .str "B_UMCBL"] :=
  ⟨(topFutures_stable_desc sampleFutures (by decide)).2.2.2.1, by decide⟩

/-- C6 as stated fails: on the rows A, X, B with the volumes `"1"`, `"abc"`,
`"2"` the comparator's result is `NaN` whenever X is compared, which the sort
reads as "equal", so `topFutures` returns the rows in input order: the volume
`1` of A stands before the volume `2` of B, and the volumes of the result are
not non-increasing. -/
theorem topFutures_unsorted_on_nan :
    mixedFutures.length = 3 ∧
    (topFutures mixedFutures).map (fun r => r "instId") =
      [.str "A_UMCBL", .str "X_UMCBL", .str "B_UMCBL"] ∧
    (topFutures mixedFutures).map volumeOf = [ofNat 1, .nan, ofNat 2] ∧
    (ofNat 1).ge (ofNat 2) = false ∧
    ¬ (topFutures mixedFutures).Pairwise (fun a b => (volumeOf a).ge (volumeOf b) = true) := by
  refine ⟨by decide, by decide, by decide, by decide, ?_⟩
  intro h
  have h2 : ((topFutures mixedFutures).map volumeOf).Pairwise
      (fun x y => JSNum.ge x y = true) := List.pairwise_map.2 h
  revert h2
  decide

end BitgetMini
